import Mathlib

/-!
Verification of the acremscope-pi door/roof driver.

The Python sources are shallowly embedded: pure numeric code over Python
floats is modelled with exact rationals (`ℚ`), Python ints with `ℤ`,
Python strings with `String` or `List Char`, and redis publishes /
stdout appends as explicit output lists.  Definitions mirror the source
files `doors.py`, `doordriver.py`, `statuslights.py`, `picoserial.py`
and `picotemperature.py` function by function.
-/

namespace Acremscope

/-! ### doors.py — the speed curve -/

/-- Coefficient `a` of the quartic fit in `doors.curve`. -/
def curveA : ℚ := -540937/10000000

/-- Coefficient `b` of the quartic fit in `doors.curve`. -/
def curveB : ℚ := 330319/1000000

/-- Coefficient `c` of the quartic fit in `doors.curve`. -/
def curveC : ℚ := -383795/10000000

/-- Coefficient `d` of the quartic fit in `doors.curve`. -/
def curveD : ℚ := 218635/100000000

/-- Coefficient `e` of the quartic fit in `doors.curve`. -/
def curveE : ℚ := -546589/10000000000

/-- `y = a + b*t + c*t*t + d*t*t*t + e*t*t*t*t` in `doors.curve`. -/
def polyval (t : ℚ) : ℚ :=
  curveA + curveB*t + curveC*t^2 + curveD*t^3 + curveE*t^4

/-- The clamping `if y < 0.0: y = 0.0 / if y > 1.0: y = 1.0` in `doors.curve`. -/
def clamp01 (q : ℚ) : ℚ :=
  if q < 0 then 0 else if 1 < q then 1 else q

/-- Python `round(y, 2)`: round to the nearest multiple of 1/100.
Python uses round-half-to-even on floats; we use `round` (half up).
The two agree except at exact ties, which do not arise in any value
this development evaluates. -/
def round2 (q : ℚ) : ℚ := (round (100 * q) : ℤ) / 100

/-- Python `int()` applied to a float: truncation toward zero. -/
def pyInt (q : ℚ) : ℤ := if 0 ≤ q then ⌊q⌋ else ⌈q⌉

/-- `doors.curve(t, duration)`: 0 past `duration`; 1.0 in the cruise
region; otherwise the clamped, rounded quartic (the deceleration side is
evaluated at `20 - (duration - t)`). -/
def curve (t dur : ℚ) : ℚ :=
  if dur ≤ t then 0
  else
    let half := dur / 2
    if t ≤ half then
      if 8 < t then 1 else round2 (clamp01 (polyval t))
    else
      if 8 < dur - t then 1 else round2 (clamp01 (polyval (20 - (dur - t))))

/-- `doors.pwmratio(t, fast_duration, duration)`: 0 past `duration`,
1.0 when `fast_duration >= duration`, otherwise time is scaled into an
8-unit acceleration window and passed to `curve`. -/
def pwmratio (t fd dur : ℚ) : ℚ :=
  if dur ≤ t then 0
  else if dur ≤ fd then 1
  else
    let acc := (dur - fd) / 2
    let scale := 8 / acc
    curve (t * scale) (dur * scale)

/-! ### doors.py — the Door object -/

/-- The tuning parameters of `doors.Door` (Python ints). -/
structure DoorParams where
  fast_duration : ℤ
  duration : ℤ
  max_running_time : ℤ
  maximum : ℤ
  minimum : ℤ
deriving DecidableEq, Repr

/-- The mutable state of a `Door` object. -/
structure DoorState where
  door : ℕ
  direction : Bool
  pwm_ratio : ℤ
  moving : Bool
  start_running : ℚ
  slow : Bool
deriving DecidableEq, Repr

/-- A message published on the `tx_to_pico` redis channel. -/
inductive Pub where
  | dir (door : ℕ) (d : Bool)
  | pwm (door : ℕ) (v : ℤ)
deriving DecidableEq, Repr

/-- The pwm integer computed by the moving branch of `doors.Door.update`
at elapsed running time `rt`: the `pwmratio` scaled by `max_ratio` in the
first half of `duration` and into `[minimum, max_ratio]` in the second
half, then truncated by `int()`. -/
def doorPwm (p : DoorParams) (slow : Bool) (rt : ℚ) : ℤ :=
  let r := pwmratio rt (p.fast_duration : ℚ) (p.duration : ℚ)
  let max_ratio : ℚ := if slow then (p.minimum : ℚ) + 1 else (p.maximum : ℚ)
  pyInt (if rt < (p.duration : ℚ) / 2 then r * max_ratio
         else (max_ratio - (p.minimum : ℚ)) * r + (p.minimum : ℚ))

/-- One tick of `doors.Door.update` at monotonic time `now`: not moving
is a no-op that clears `slow`; elapsed time at or past
`max_running_time` stops the door, zeroes the stored ratio and publishes
a zero pwm; otherwise the computed pwm is published iff it changed. -/
def update (p : DoorParams) (now : ℚ) (s : DoorState) : DoorState × Option Pub :=
  if s.moving = false then ({ s with slow := false }, Option.none)
  else
    let running_time := now - s.start_running
    if (p.max_running_time : ℚ) ≤ running_time then
      ({ s with pwm_ratio := 0, moving := false }, some (Pub.pwm s.door 0))
    else
      let pwm := doorPwm p s.slow running_time
      if pwm = s.pwm_ratio then (s, Option.none)
      else ({ s with pwm_ratio := pwm }, some (Pub.pwm s.door pwm))

/-- `doors.Door.startdoor(direction)`: a no-op while moving, otherwise
records the start instant, marks the door moving, sets the direction and
publishes a direction command. -/
def startdoor (now : ℚ) (direction : Bool) (s : DoorState) : DoorState × List Pub :=
  if s.moving then (s, [])
  else ({ s with start_running := now, moving := true, direction := direction },
        [Pub.dir s.door direction])

/-- Run `update` over a list of tick instants, collecting the publishes. -/
def runTicks (p : DoorParams) : DoorState → List ℚ → DoorState × List Pub
  | s, [] => (s, [])
  | s, t :: ts =>
    let su := update p t s
    let rest := runTicks p su.1 ts
    (rest.1, su.2.toList ++ rest.2)

/-! ### statuslights.py — StatusLights -/

/-- The five aggregate roof statuses of the DOOR_STATE light vector. -/
inductive RoofStatus where
  | OPEN
  | OPENING
  | CLOSING
  | CLOSED
  | UNKNOWN
deriving DecidableEq, Repr, Fintype

/-- The aggregate status computed at the top of `StatusLights.update`
from the two doors' `(direction, moving)` pairs (`statuslights.py`
lines 27–37): starts at UNKNOWN, overwritten when both directions are
open-bound or both close-bound. -/
def doorStatus (ldir lmov rdir rmov : Bool) : RoofStatus :=
  let s0 := RoofStatus.UNKNOWN
  let s1 := if ldir && rdir then
              (if lmov || rmov then RoofStatus.OPENING else RoofStatus.OPEN)
            else s0
  if !ldir && !rdir then
    (if lmov || rmov then RoofStatus.CLOSING else RoofStatus.CLOSED)
  else s1

/-- The rest of `StatusLights.update`: nothing is emitted when the
status is unchanged; otherwise a setLightVector is emitted with state
Alert and message "Roof status unknown" for UNKNOWN and state Ok,
message "Roof status" otherwise. -/
def statusUpdate (prev : RoofStatus) (ldir lmov rdir rmov : Bool) :
    Option (RoofStatus × String × String) :=
  let status := doorStatus ldir lmov rdir rmov
  if status = prev then Option.none
  else if status = RoofStatus.UNKNOWN then
    some (status, "Alert", "Roof status unknown")
  else some (status, "Ok", "Roof status")

/-! ### doordriver.py — the Roof switch vector -/

/-- `doordriver.Door.startdoor(direction, slow)`: as `startdoor` but
also records the `slow` override. -/
def startdoorDrv (now : ℚ) (direction slow : Bool) (s : DoorState) : DoorState × List Pub :=
  if s.moving then (s, [])
  else ({ s with start_running := now, moving := true, slow := slow, direction := direction },
        [Pub.dir s.door direction])

/-- Result of processing one `oneSwitch` element in `Roof.newvector`:
the two door states, the publishes to the Bus, and whether a
setSwitchVector Ok acknowledgement was appended to the sender deque. -/
def roofStep (status : RoofStatus) (now : ℚ) (e : String × String)
    (ds : DoorState × DoorState) : (DoorState × DoorState) × List Pub × Bool :=
  if e.1 = "SHUTTER_OPEN" ∧ e.2 = "On" then
    if status = RoofStatus.CLOSED then
      let l := startdoorDrv now true false ds.1
      let r := startdoorDrv now true false ds.2
      ((l.1, r.1), l.2 ++ r.2, false)
    else if status = RoofStatus.OPEN then (ds, [], true)
    else (ds, [], false)
  else if e.1 = "SHUTTER_OPEN" ∧ e.2 = "Off" then
    if status = RoofStatus.OPEN then
      let l := startdoorDrv now false false ds.1
      let r := startdoorDrv now false false ds.2
      ((l.1, r.1), l.2 ++ r.2, false)
    else if status = RoofStatus.CLOSED then (ds, [], true)
    else (ds, [], false)
  else if e.1 = "SHUTTER_CLOSE" ∧ e.2 = "On" then
    if status = RoofStatus.OPEN then
      let l := startdoorDrv now false false ds.1
      let r := startdoorDrv now false false ds.2
      ((l.1, r.1), l.2 ++ r.2, false)
    else if status = RoofStatus.CLOSED then (ds, [], true)
    else (ds, [], false)
  else if e.1 = "SHUTTER_CLOSE" ∧ e.2 = "Off" then
    if status = RoofStatus.CLOSED then
      let l := startdoorDrv now true false ds.1
      let r := startdoorDrv now true false ds.2
      ((l.1, r.1), l.2 ++ r.2, false)
    else if status = RoofStatus.OPEN then (ds, [], true)
    else (ds, [], false)
  else (ds, [], false)

/-- `Roof.newvector` body after the tag/device/name filters: fold over
the `oneSwitch` elements (each a `(name, stripped text)` pair), with
`lights.status` fixed for the whole call.  Returns the final door pair,
the concatenated Bus publishes and the number of Ok acknowledgements. -/
def roofNewvector (status : RoofStatus) (now : ℚ) :
    List (String × String) → DoorState × DoorState →
    (DoorState × DoorState) × List Pub × ℕ
  | [], ds => (ds, [], 0)
  | e :: es, ds =>
    let st := roofStep status now e ds
    let rest := roofNewvector status now es st.1
    (rest.1, st.2.1 ++ rest.2.1, (if st.2.2 then 1 else 0) + rest.2.2)

/-! ### doordriver.py — Door.newvector parameter validation -/

/-- The six tuning elements of the `doordriver.Door` number vector, as
the Python ints they are converted to.  The source carries them as
decimal strings and compares strings; on the canonical decimal strings
it produces this coincides with integer comparison. -/
structure Params6 where
  acc_duration : ℤ
  fast_duration : ℤ
  dec_duration : ℤ
  slow_duration : ℤ
  maximum : ℤ
  minimum : ℤ
deriving DecidableEq, Repr

/-- Merge one received `oneNumber` element over the current elements,
matching the name dispatch in `doordriver.Door.newvector`; unknown
names are ignored. -/
def mergeOne (cur : Params6) (nm : String) (v : ℤ) : Params6 :=
  if nm = "ACC_DURATION" then { cur with acc_duration := v }
  else if nm = "FAST_DURATION" then { cur with fast_duration := v }
  else if nm = "DEC_DURATION" then { cur with dec_duration := v }
  else if nm = "SLOW_DURATION" then { cur with slow_duration := v }
  else if nm = "MAXIMUM" then { cur with maximum := v }
  else if nm = "MINIMUM" then { cur with minimum := v }
  else cur

/-- The `newelements` list built by `doordriver.Door.newvector`: a copy
of the current elements updated by each received `oneNumber` in order. -/
def mergeElems (cur : Params6) (recv : List (String × ℤ)) : Params6 :=
  recv.foldl (fun c p => mergeOne c p.1 p.2) cur

/-- Outcome of `doordriver.Door.newvector`: the stored elements after
the call, the state and message of the emitted setNumberVector, and
whether `write_parameters` ran. -/
structure NvResult where
  params : Params6
  state : String
  message : String
  written : Bool
deriving DecidableEq, Repr

/-- `doordriver.Door.newvector` after the tag/device/name filters, on
the received `oneNumber` elements: unchanged elements answer Ok; then
the four validation checks run in order, each aborting with Alert, the
current elements and no file write; only a fully valid change stores
the new elements and writes the parameter file. -/
def newvector (cur : Params6) (recv : List (String × ℤ)) : NvResult :=
  let ne := mergeElems cur recv
  if ne = cur then
    ⟨cur, "Ok", "Door motion durations and motor PWM ratio can be set here.", false⟩
  else if ne.maximum ≤ ne.minimum then
    ⟨cur, "Alert", "The maximum pwm must be greater than the minimum", false⟩
  else if 95 < ne.maximum then
    ⟨cur, "Alert", "The maximum pwm is 95 max", false⟩
  else if 50 < ne.minimum then
    ⟨cur, "Alert", "The minimum pwm is 50 max", false⟩
  else if ne.minimum < 1 then
    ⟨cur, "Alert", "The minimum pwm is 1", false⟩
  else
    ⟨ne, "Ok", "Door motion durations and motor PWM ratio can be set here.", true⟩

/-! ### doors.py / statuslights.py — getvector filtering -/

/-- The emission decision of `Door.getvector` / `StatusLights.getvector`
on a getProperties with optional `device` and `name` attributes: an
absent device emits unconditionally; a present device must match, after
which an absent or matching name emits. -/
def getvectorEmits (devF nameF : Option String) (dev nm : String) : Bool :=
  match devF with
  | Option.none => true
  | some d =>
    if d = dev then
      match nameF with
      | Option.none => true
      | some n => n = nm
    else false

/-! ### doordriver.py — the stdin frame reader -/

/-- Python `str.strip` whitespace for the byte chunks handled by
`_Driver.reader` (space, newline, carriage return, tab). -/
def isPySpace (c : Char) : Bool :=
  c = ' ' || c = '\n' || c = '\r' || c = '\t'

/-- Python `bytes.strip()`. -/
def pyStrip (l : List Char) : List Char :=
  ((l.dropWhile isPySpace).reverse.dropWhile isPySpace).reverse

/-- `_STARTTAGS` of `doordriver.py`, in source order. -/
def startTags : List (List Char) :=
  ["<getProperties".data, "<newTextVector".data, "<newNumberVector".data,
   "<newSwitchVector".data, "<newBLOBVector".data]

/-- `_ENDTAGS` of `doordriver.py`, in source order. -/
def endTags : List (List Char) :=
  ["</getProperties>".data, "</newTextVector>".data, "</newNumberVector>".data,
   "</newSwitchVector>".data, "</newBLOBVector>".data]

/-- The `for index, st in enumerate(_STARTTAGS): if data.startswith(st)`
scan: index of the first start tag the stripped chunk begins with. -/
def findStartTag (d : List Char) : Option ℕ :=
  startTags.findIdx? (fun st => st.isPrefixOf d)

/-- State of `_Driver.reader`: `none` is the empty accumulation buffer,
`some (i, msg)` is a message in progress with its start-tag index. -/
abbrev ReaderState := Option (ℕ × List Char)

/-- One chunk step of `_Driver.reader`.  The second component is the
completed message handed to the XML parser (parse failure or dispatch
both reset the buffer, so the state outcome is the same either way). -/
def readerStep (st : ReaderState) (data : List Char) : ReaderState × Option (List Char) :=
  match st with
  | Option.none =>
    let d := pyStrip data
    match findStartTag d with
    | Option.none => (Option.none, Option.none)
    | some i =>
      if ("/>".data).isSuffixOf d then (Option.none, some d)
      else (some (i, d), Option.none)
  | some (i, msg) =>
    let m := msg ++ data
    if (endTags.getD i []).isSuffixOf m then (Option.none, some m)
    else (some (i, m), Option.none)

/-- Feed a list of chunks through `readerStep`, collecting the
completed messages. -/
def runReader : ReaderState → List (List Char) → List (List Char)
  | _, [] => []
  | st, d :: ds =>
    let so := readerStep st d
    so.2.toList ++ runReader so.1 ds

/-! ### picoserial.py — receiver and resynchronization -/

/-- Python `==` between a `bytes` value and an `int` value, as in the
resync loop's `getbyte == 255`: `bytes.__eq__` returns NotImplemented
for a non-bytes operand and `int.__eq__` returns NotImplemented for a
non-int operand, so the comparison always evaluates to False. -/
def pyEqBytesInt (_b : List ℕ) (_n : ℕ) : Bool := false

/-- A value stored in redis by `picoserial.receiver`. -/
inductive BusVal where
  | s (v : String)
  | i (v : ℤ)
deriving DecidableEq, Repr

/-- How the resync loop of `picoserial.receiver` ends.  Each list entry
is one `ser.read(1)` result: `none` models a read returning Python
`None` (what the loop's `is None` check assumes a timeout looks like;
pyserial in fact returns `b''`), `some b` a read returning the bytes
value `b`. -/
inductive ResyncOutcome where
  | synced
  | timedOut
  | exhausted
deriving DecidableEq, Repr

/-- The `while True` resync loop of `picoserial.receiver` (lines
28–35): return on a `None` read, return on `getbyte == 255`, else keep
reading; `exhausted` means the given reads ran out with the loop still
running. -/
def resyncLoop : List (Option (List ℕ)) → ResyncOutcome
  | [] => ResyncOutcome.exhausted
  | r :: rest =>
    match r with
    | Option.none => ResyncOutcome.timedOut
    | some b => if pyEqBytesInt b 255 then ResyncOutcome.synced else resyncLoop rest

/-- The five per-door parameter readback writes (command bytes 12/13). -/
def paramWrites (door : String) (b1 b2 : ℕ) : List (String × BusVal) :=
  (if b1 = 1 then [("pico_door" ++ door ++ "_fast_duration", BusVal.i b2)] else []) ++
  (if b1 = 2 then [("pico_door" ++ door ++ "_duration", BusVal.i b2)] else []) ++
  (if b1 = 3 then [("pico_door" ++ door ++ "_max_running_time", BusVal.i b2)] else []) ++
  (if b1 = 4 then [("pico_door" ++ door ++ "_maximum", BusVal.i b2)] else []) ++
  (if b1 = 5 then [("pico_door" ++ door ++ "_minimum", BusVal.i b2)] else [])

/-- The redis writes of the frame dispatch in `picoserial.receiver`
(lines 37–99), for a valid 4-byte frame. -/
def dispatchWrites (frame : List ℕ) : List (String × BusVal) :=
  let b0 := frame.getD 0 0
  let b1 := frame.getD 1 0
  let b2 := frame.getD 2 0
  (if b0 = 1 then
     (if b1 = 25 ∧ b2 = 0 then [("pico_led", BusVal.s "Off")] else []) ++
     (if b1 = 25 ∧ b2 = 1 then [("pico_led", BusVal.s "On")] else [])
   else []) ++
  (if b0 = 2 then
     (if b1 = 25 ∧ b2 = 0 then [("pico_led", BusVal.s "Off")] else []) ++
     (if b1 = 25 ∧ b2 = 1 then [("pico_led", BusVal.s "On")] else [])
   else if b0 = 3 ∧ b1 = 0 then [("pico_monitor", BusVal.i b2)]
   else if b0 = 5 then [("pico_temperature", BusVal.i (256 * b1 + b2))]
   else if b0 = 7 then
     (if b1 = 1 then [("pico_roofdoor1", BusVal.i b2)]
      else [("pico_roofdoor0", BusVal.i b2)])
   else if b0 = 12 then paramWrites "0" b1 b2
   else if b0 = 13 then paramWrites "1" b1 b2
   else [])

/-- `picoserial.receiver`: `frame` is the result of `ser.read(4)` (an
empty list models the falsy `b''`), `rest` the subsequent single-byte
reads available to the resync loop.  Returns the redis writes and, when
the resync path was entered, how that loop ended. -/
def receiver (frame : List ℕ) (rest : List (Option (List ℕ))) :
    List (String × BusVal) × Option ResyncOutcome :=
  if frame = [] then ([], Option.none)
  else if frame.length ≠ 4 then ([], Option.none)
  else if frame.getD 3 0 ≠ 255 then ([], some (resyncLoop rest))
  else (dispatchWrites frame, Option.none)

/-! ### picotemperature.py — temperature conversion -/

/-- `Temperature.conversion_factor = 3.3 / 65535`, as an exact
rational. -/
def conversion_factor : ℚ := (33/10) / 65535

/-- The Kelvin conversion in `Temperature.get_temperature` applied to a
raw ADC reading (Python floats idealized as exact rationals). -/
def kelvin (reading : ℤ) : ℚ :=
  27 - ((reading : ℚ) * conversion_factor - 706/1000) / (1721/1000000) + 27315/100

/-- Formal derivative of `polyval`, used to establish monotonicity of
the quartic fit on the acceleration and deceleration windows. -/
def polyder (t : ℚ) : ℚ :=
  curveB + 2*curveC*t + 3*curveD*t^2 + 4*curveE*t^3

/-- The emission condition stated by the spec for `getvector`, following
its words: the definition is emitted iff the device filter and the name
filter are each absent or equal to the vector's own device and name.
(To be compared with `getvectorEmits`, which embeds the code.) -/
def specEmitCondition (devF nameF : Option String) (dev nm : String) : Bool :=
  (devF = Option.none || devF = some dev) && (nameF = Option.none || nameF = some nm)

/-- Invariant carried along a motion cycle of `doors.Door`: the door is
moving, started at instant `T` with slow-flag `sl` and door number
`d0`, and the stored `pwm_ratio` is either still 0 or the nonzero pwm
computed at some already-processed tick instant `t' ≤ u`. -/
def MovingInv (p : DoorParams) (T : ℚ) (sl : Bool) (d0 : ℕ) (u : ℚ) (s : DoorState) : Prop :=
  s.moving = true ∧ s.start_running = T ∧ s.slow = sl ∧ s.door = d0 ∧
    (s.pwm_ratio = 0 ∨
      ∃ t', T ≤ t' ∧ t' ≤ u ∧ s.pwm_ratio = doorPwm p sl (t' - T) ∧ s.pwm_ratio ≠ 0)

end Acremscope

namespace Acremscope

/-! ### Monotonicity of the quartic speed-curve fit -/

lemma quadK_neg (x y : ℚ) (_hx : 0 ≤ x) (_hy : 0 ≤ y) :
    2*curveC + 3*curveD*(x+y) + 4*curveE*(x^2+x*y+y^2) < 0 := by
  have h1 : (0:ℚ) ≤ (x - y)^2 := sq_nonneg _
  have h2 : (0:ℚ) ≤ (x + y - 20)^2 := sq_nonneg _
  unfold curveC curveD curveE
  nlinarith [h1, h2]

lemma quadH_neg (x y : ℚ) (_hx : 0 ≤ x) (_hy : 0 ≤ y) :
    curveC + curveD*(x + 2*y) + curveE*(x^2 + 2*x*y + 3*y^2) < 0 := by
  have h1 : (0:ℚ) ≤ (x - y)^2 := sq_nonneg _
  have h2 : (0:ℚ) ≤ (x + 2*y - 30)^2 := sq_nonneg _
  unfold curveC curveD curveE
  nlinarith [h1, h2]

lemma polyder_anti (x y : ℚ) (hx : 0 ≤ x) (hxy : x ≤ y) : polyder y ≤ polyder x := by
  have hy : 0 ≤ y := hx.trans hxy
  have hK := quadK_neg x y hx hy
  have hid : polyder y - polyder x
      = (y - x) * (2*curveC + 3*curveD*(x+y) + 4*curveE*(x^2+x*y+y^2)) := by
    unfold polyder; ring
  nlinarith [mul_nonneg (sub_nonneg.2 hxy) (neg_nonneg.2 hK.le)]

lemma polyder8_pos : 0 < polyder 8 := by
  norm_num [polyder, curveB, curveC, curveD, curveE]

lemma polyder12_neg : polyder 12 < 0 := by
  norm_num [polyder, curveB, curveC, curveD, curveE]

lemma polyval_incr (x y : ℚ) (hx : 0 ≤ x) (hxy : x ≤ y) (hy : y ≤ 8) :
    polyval x ≤ polyval y := by
  have hy0 : 0 ≤ y := hx.trans hxy
  have hH := quadH_neg x y hx hy0
  have hP8 : polyder 8 ≤ polyder y := polyder_anti y 8 hy0 hy
  have hid : polyval y - polyval x
      = (y - x) * (polyder y
          + (y - x) * (-(curveC + curveD*(x + 2*y) + curveE*(x^2 + 2*x*y + 3*y^2)))) := by
    unfold polyval polyder; ring
  nlinarith [polyder8_pos, sub_nonneg.2 hxy,
    mul_nonneg (sub_nonneg.2 hxy) (neg_nonneg.2 hH.le)]

lemma polyval_decr (x y : ℚ) (hx : 12 ≤ x) (hxy : x ≤ y) :
    polyval y ≤ polyval x := by
  have h0x : (0:ℚ) ≤ x := by linarith
  have h0y : (0:ℚ) ≤ y := by linarith
  have hH := quadH_neg y x h0y h0x
  have hP12 : polyder x ≤ polyder 12 := polyder_anti 12 x (by norm_num) hx
  have hid : polyval y - polyval x
      = (y - x) * (polyder x
          + (y - x) * (curveC + curveD*(y + 2*x) + curveE*(y^2 + 2*x*y + 3*x^2))) := by
    unfold polyval polyder; ring
  nlinarith [polyder12_neg, sub_nonneg.2 hxy,
    mul_nonneg (sub_nonneg.2 hxy) (neg_nonneg.2 hH.le)]

/-! ### Clamping, rounding, truncation -/

lemma clamp01_nonneg (q : ℚ) : 0 ≤ clamp01 q := by
  unfold clamp01; split_ifs <;> linarith

lemma clamp01_le_one (q : ℚ) : clamp01 q ≤ 1 := by
  unfold clamp01; split_ifs <;> linarith

lemma clamp01_mono {q r : ℚ} (h : q ≤ r) : clamp01 q ≤ clamp01 r := by
  unfold clamp01; split_ifs <;> linarith

lemma round2_mono {q r : ℚ} (h : q ≤ r) : round2 q ≤ round2 r := by
  unfold round2
  have h1 : round (100*q) ≤ round (100*r) := by
    rw [round_eq, round_eq]
    exact Int.floor_mono (by linarith)
  have h2 : ((round (100*q) : ℤ) : ℚ) ≤ ((round (100*r) : ℤ) : ℚ) := by exact_mod_cast h1
  linarith

lemma round2_zero : round2 0 = 0 := by
  norm_num [round2]

lemma round2_one : round2 1 = 1 := by
  norm_num [round2, round_eq]

lemma round2_nonneg {q : ℚ} (h : 0 ≤ q) : 0 ≤ round2 q := by
  have := round2_mono h; rwa [round2_zero] at this

lemma round2_le_one {q : ℚ} (h : q ≤ 1) : round2 q ≤ 1 := by
  have := round2_mono h; rwa [round2_one] at this

lemma pyInt_mono {q r : ℚ} (h : q ≤ r) : pyInt q ≤ pyInt r := by
  unfold pyInt
  split_ifs with h1 h2 h2
  · exact Int.floor_mono h
  · linarith
  · calc ⌈q⌉ ≤ ⌈(0:ℚ)⌉ := Int.ceil_mono (by linarith)
      _ = 0 := by norm_num
      _ ≤ ⌊r⌋ := by
          have : (0:ℚ) ≤ r := h2
          exact_mod_cast Int.le_floor.2 (by exact_mod_cast this)
  · exact Int.ceil_mono h

lemma pyInt_nonneg {q : ℚ} (h : 0 ≤ q) : 0 ≤ pyInt q := by
  unfold pyInt
  rw [if_pos h]
  exact Int.le_floor.2 (by exact_mod_cast h)

lemma pyInt_le_of_le_int {q : ℚ} {n : ℤ} (h : q ≤ (n : ℚ)) : pyInt q ≤ n := by
  unfold pyInt
  split_ifs with h1
  · calc ⌊q⌋ ≤ ⌊(n:ℚ)⌋ := Int.floor_mono h
      _ = n := Int.floor_intCast n
  · exact Int.ceil_le.2 h

lemma int_le_pyInt {q : ℚ} {n : ℤ} (h0 : 0 ≤ q) (h : (n : ℚ) ≤ q) : n ≤ pyInt q := by
  unfold pyInt
  rw [if_pos h0]
  exact Int.le_floor.2 h

/-! ### Bounds and monotonicity of `curve` and `pwmratio` -/

lemma body_nonneg (t : ℚ) : 0 ≤ round2 (clamp01 (polyval t)) :=
  round2_nonneg (clamp01_nonneg _)

lemma body_le_one (t : ℚ) : round2 (clamp01 (polyval t)) ≤ 1 :=
  round2_le_one (clamp01_le_one _)

lemma curve_nonneg (t dur : ℚ) : 0 ≤ curve t dur := by
  simp only [curve]
  split_ifs <;> first | exact body_nonneg _ | norm_num

lemma curve_le_one (t dur : ℚ) : curve t dur ≤ 1 := by
  simp only [curve]
  split_ifs <;> first | exact body_le_one _ | norm_num

lemma curve_mono_first (dur : ℚ) (hdur : 0 < dur) (t₁ t₂ : ℚ)
    (h0 : 0 ≤ t₁) (h12 : t₁ ≤ t₂) (h2 : t₂ ≤ dur/2) :
    curve t₁ dur ≤ curve t₂ dur := by
  have hn1 : ¬ dur ≤ t₁ := by
    intro h; have : dur/2 < dur := by linarith
    linarith
  have hn2 : ¬ dur ≤ t₂ := by
    intro h; have : dur/2 < dur := by linarith
    linarith
  have hh1 : t₁ ≤ dur/2 := h12.trans h2
  simp only [curve, if_neg hn1, if_neg hn2, if_pos hh1, if_pos h2]
  split_ifs with ha hb hb
  · exact le_refl _
  · exact absurd (ha.trans_le h12) hb
  · exact body_le_one _
  · exact round2_mono (clamp01_mono (polyval_incr t₁ t₂ h0 h12 (le_of_not_lt hb)))

lemma curve_anti_second (dur : ℚ) (hhalf : 8 < dur/2) (t₁ t₂ : ℚ)
    (h1 : dur/2 ≤ t₁) (h12 : t₁ ≤ t₂) :
    curve t₂ dur ≤ curve t₁ dur := by
  by_cases hd1 : dur ≤ t₁
  · have hd2 : dur ≤ t₂ := hd1.trans h12
    simp [curve, if_pos hd1, if_pos hd2]
  · by_cases hd2 : dur ≤ t₂
    · have h2z : curve t₂ dur = 0 := by simp [curve, hd2]
      rw [h2z]; exact curve_nonneg _ _
    · by_cases he : t₁ ≤ dur/2
      · have ht1 : (8:ℚ) < t₁ := lt_of_lt_of_le hhalf h1
        have h1c : curve t₁ dur = 1 := by
          simp only [curve, if_neg hd1, if_pos he, if_pos ht1]
        rw [h1c]; exact curve_le_one _ _
      · have he2 : ¬ t₂ ≤ dur/2 := fun h => he (h12.trans h)
        simp only [curve, if_neg hd1, if_neg hd2, if_neg he, if_neg he2]
        split_ifs with ha hb hb
        · exact le_refl _
        · exact absurd (by linarith : (8:ℚ) < dur - t₁) hb
        · exact body_le_one _
        · refine round2_mono (clamp01_mono (polyval_decr _ _ ?_ ?_))
          · have : dur - t₁ ≤ 8 := le_of_not_lt hb
            linarith
          · linarith

lemma pwmratio_nonneg (t fd dur : ℚ) : 0 ≤ pwmratio t fd dur := by
  simp only [pwmratio]
  split_ifs <;> first | exact curve_nonneg _ _ | norm_num

lemma pwmratio_le_one (t fd dur : ℚ) : pwmratio t fd dur ≤ 1 := by
  simp only [pwmratio]
  split_ifs <;> first | exact curve_le_one _ _ | norm_num

lemma scaled_half_gt (fd dur : ℚ) (hfd0 : 0 < fd) (hfd : fd < dur) :
    8 < dur * (8 / ((dur - fd) / 2)) / 2 := by
  have hk : 0 < dur - fd := by linarith
  have heq : dur * (8 / ((dur - fd) / 2)) / 2 = 8 * dur / (dur - fd) := by
    field_simp; ring
  rw [heq, lt_div_iff₀ hk]
  linarith

lemma pwmratio_zero (fd dur : ℚ) (hfd0 : 0 < fd) (hfd : fd < dur) :
    pwmratio 0 fd dur = 0 := by
  have hdur : 0 < dur := hfd0.trans hfd
  have hk : 0 < dur - fd := by linarith
  have hs : 0 < 8 / ((dur - fd) / 2) := by positivity
  have hD : 0 < dur * (8 / ((dur - fd) / 2)) := mul_pos hdur hs
  simp only [pwmratio, if_neg (not_le.2 hdur), if_neg (not_le.2 hfd), zero_mul]
  simp only [curve, if_neg (not_le.2 hD), if_pos (by linarith : (0:ℚ) ≤ dur * (8 / ((dur - fd) / 2)) / 2),
    if_neg (by norm_num : ¬ (8:ℚ) < 0)]
  have hpv : polyval 0 = curveA := by simp [polyval]
  rw [hpv]
  have hcl : clamp01 curveA = 0 := by
    rw [clamp01, if_pos (by norm_num [curveA] : curveA < (0:ℚ))]
  rw [hcl, round2_zero]

lemma pwmratio_mid (fd dur : ℚ) (hfd0 : 0 < fd) (hfd : fd < dur) :
    pwmratio (dur/2) fd dur = 1 := by
  have hdur : 0 < dur := hfd0.trans hfd
  have hk : 0 < dur - fd := by linarith
  have hs : 0 < 8 / ((dur - fd) / 2) := by positivity
  have hD : 0 < dur * (8 / ((dur - fd) / 2)) := mul_pos hdur hs
  have hmid : dur / 2 * (8 / ((dur - fd) / 2)) = dur * (8 / ((dur - fd) / 2)) / 2 := by
    ring
  have h8 : 8 < dur / 2 * (8 / ((dur - fd) / 2)) := by
    rw [hmid]; exact scaled_half_gt fd dur hfd0 hfd
  simp only [pwmratio, if_neg (not_le.2 (by linarith : dur/2 < dur)), if_neg (not_le.2 hfd)]
  simp only [curve, if_neg (not_le.2 (by rw [hmid]; linarith : dur / 2 * (8 / ((dur - fd) / 2)) < dur * (8 / ((dur - fd) / 2)))),
    if_pos (le_of_eq hmid), if_pos h8]

lemma pwmratio_mono_first (fd dur : ℚ) (hfd0 : 0 < fd) (hfd : fd < dur) (t₁ t₂ : ℚ)
    (h0 : 0 ≤ t₁) (h12 : t₁ ≤ t₂) (h2 : t₂ ≤ dur/2) :
    pwmratio t₁ fd dur ≤ pwmratio t₂ fd dur := by
  have hdur : 0 < dur := hfd0.trans hfd
  have hn1 : ¬ dur ≤ t₁ := by intro h; linarith
  have hn2 : ¬ dur ≤ t₂ := by intro h; linarith
  have hnf : ¬ dur ≤ fd := not_le.2 hfd
  simp only [pwmratio, if_neg hn1, if_neg hn2, if_neg hnf]
  have hk : 0 < dur - fd := by linarith
  have hs : 0 < 8 / ((dur - fd) / 2) := by positivity
  refine curve_mono_first (dur * (8 / ((dur - fd) / 2))) (mul_pos hdur hs) _ _
    (mul_nonneg h0 hs.le) (mul_le_mul_of_nonneg_right h12 hs.le) ?_
  calc t₂ * (8 / ((dur - fd) / 2)) ≤ dur/2 * (8 / ((dur - fd) / 2)) :=
        mul_le_mul_of_nonneg_right h2 hs.le
    _ = dur * (8 / ((dur - fd) / 2)) / 2 := by ring

lemma pwmratio_anti_second (fd dur : ℚ) (hfd0 : 0 < fd) (hfd : fd < dur) (t₁ t₂ : ℚ)
    (h1 : dur/2 ≤ t₁) (h12 : t₁ ≤ t₂) :
    pwmratio t₂ fd dur ≤ pwmratio t₁ fd dur := by
  have hdur : 0 < dur := hfd0.trans hfd
  by_cases hd2 : dur ≤ t₂
  · have h2z : pwmratio t₂ fd dur = 0 := by simp [pwmratio, hd2]
    rw [h2z]; exact pwmratio_nonneg _ _ _
  · have hd1 : ¬ dur ≤ t₁ := fun h => hd2 (h.trans h12)
    have hnf : ¬ dur ≤ fd := not_le.2 hfd
    simp only [pwmratio, if_neg hd1, if_neg hd2, if_neg hnf]
    have hk : 0 < dur - fd := by linarith
    have hs : 0 < 8 / ((dur - fd) / 2) := by positivity
    refine curve_anti_second (dur * (8 / ((dur - fd) / 2)))
      (scaled_half_gt fd dur hfd0 hfd) _ _ ?_
      (mul_le_mul_of_nonneg_right h12 hs.le)
    calc dur * (8 / ((dur - fd) / 2)) / 2 = dur/2 * (8 / ((dur - fd) / 2)) := by ring
      _ ≤ t₁ * (8 / ((dur - fd) / 2)) := mul_le_mul_of_nonneg_right h1 hs.le

/-! ### Bounds and monotonicity of the integer pwm of `Door.update` -/

lemma maxratio_gt_min (p : DoorParams) (slow : Bool) (hmm : p.minimum < p.maximum) :
    (p.minimum : ℚ) < (if slow then (p.minimum : ℚ) + 1 else (p.maximum : ℚ)) := by
  split_ifs
  · linarith
  · exact_mod_cast hmm

lemma maxratio_le_max (p : DoorParams) (slow : Bool) (hmm : p.minimum < p.maximum) :
    (if slow then (p.minimum : ℚ) + 1 else (p.maximum : ℚ)) ≤ (p.maximum : ℚ) := by
  split_ifs with h
  · exact_mod_cast hmm
  · exact le_refl _

lemma doorPwm_le_max (p : DoorParams) (slow : Bool)
    (hmn : 0 ≤ p.minimum) (hmm : p.minimum < p.maximum) (rt : ℚ) :
    doorPwm p slow rt ≤ p.maximum := by
  have hmn' : (0:ℚ) ≤ (p.minimum : ℚ) := by exact_mod_cast hmn
  have hgt := maxratio_gt_min p slow hmm
  have hle := maxratio_le_max p slow hmm
  have hr0 := pwmratio_nonneg rt (p.fast_duration : ℚ) (p.duration : ℚ)
  have hr1 := pwmratio_le_one rt (p.fast_duration : ℚ) (p.duration : ℚ)
  simp only [doorPwm]
  set M : ℚ := if slow = true then (p.minimum : ℚ) + 1 else (p.maximum : ℚ) with hM
  apply pyInt_le_of_le_int
  split_ifs
  · nlinarith
  · nlinarith

lemma doorPwm_nonneg (p : DoorParams) (slow : Bool)
    (hmn : 0 ≤ p.minimum) (hmm : p.minimum < p.maximum) (rt : ℚ) :
    0 ≤ doorPwm p slow rt := by
  have hmn' : (0:ℚ) ≤ (p.minimum : ℚ) := by exact_mod_cast hmn
  have hgt := maxratio_gt_min p slow hmm
  have hr0 := pwmratio_nonneg rt (p.fast_duration : ℚ) (p.duration : ℚ)
  simp only [doorPwm]
  set M : ℚ := if slow = true then (p.minimum : ℚ) + 1 else (p.maximum : ℚ) with hM
  apply pyInt_nonneg
  split_ifs
  · exact mul_nonneg hr0 (by linarith)
  · exact add_nonneg (mul_nonneg (by linarith) hr0) hmn'

lemma doorPwm_ge_min_second (p : DoorParams) (slow : Bool)
    (hmn : 0 ≤ p.minimum) (hmm : p.minimum < p.maximum) (rt : ℚ)
    (h : (p.duration : ℚ)/2 ≤ rt) :
    p.minimum ≤ doorPwm p slow rt := by
  have hmn' : (0:ℚ) ≤ (p.minimum : ℚ) := by exact_mod_cast hmn
  have hgt := maxratio_gt_min p slow hmm
  have hr0 := pwmratio_nonneg rt (p.fast_duration : ℚ) (p.duration : ℚ)
  simp only [doorPwm]
  set M : ℚ := if slow = true then (p.minimum : ℚ) + 1 else (p.maximum : ℚ) with hM
  rw [if_neg (not_lt.2 h)]
  have hval : (p.minimum : ℚ) ≤
      (M - (p.minimum : ℚ)) * pwmratio rt (p.fast_duration : ℚ) (p.duration : ℚ)
        + (p.minimum : ℚ) := by
    nlinarith
  exact int_le_pyInt (hmn'.trans hval) hval

lemma doorPwm_mono_first (p : DoorParams) (slow : Bool)
    (hfd0 : 0 < p.fast_duration) (hfdd : p.fast_duration < p.duration)
    (hmn : 0 ≤ p.minimum) (hmm : p.minimum < p.maximum) (t₁ t₂ : ℚ)
    (h0 : 0 ≤ t₁) (h12 : t₁ ≤ t₂) (h2 : t₂ < (p.duration : ℚ)/2) :
    doorPwm p slow t₁ ≤ doorPwm p slow t₂ := by
  have hmn' : (0:ℚ) ≤ (p.minimum : ℚ) := by exact_mod_cast hmn
  have hgt := maxratio_gt_min p slow hmm
  have hfd0' : (0:ℚ) < (p.fast_duration : ℚ) := by exact_mod_cast hfd0
  have hfdd' : (p.fast_duration : ℚ) < (p.duration : ℚ) := by exact_mod_cast hfdd
  simp only [doorPwm]
  set M : ℚ := if slow = true then (p.minimum : ℚ) + 1 else (p.maximum : ℚ) with hM
  rw [if_pos (h12.trans_lt h2), if_pos h2]
  exact pyInt_mono (mul_le_mul_of_nonneg_right
    (pwmratio_mono_first _ _ hfd0' hfdd' t₁ t₂ h0 h12 h2.le) (by linarith))

lemma doorPwm_anti_second (p : DoorParams) (slow : Bool)
    (hfd0 : 0 < p.fast_duration) (hfdd : p.fast_duration < p.duration)
    (hmn : 0 ≤ p.minimum) (hmm : p.minimum < p.maximum) (t₁ t₂ : ℚ)
    (h1 : (p.duration : ℚ)/2 ≤ t₁) (h12 : t₁ ≤ t₂) :
    doorPwm p slow t₂ ≤ doorPwm p slow t₁ := by
  have hmn' : (0:ℚ) ≤ (p.minimum : ℚ) := by exact_mod_cast hmn
  have hgt := maxratio_gt_min p slow hmm
  have hfd0' : (0:ℚ) < (p.fast_duration : ℚ) := by exact_mod_cast hfd0
  have hfdd' : (p.fast_duration : ℚ) < (p.duration : ℚ) := by exact_mod_cast hfdd
  simp only [doorPwm]
  set M : ℚ := if slow = true then (p.minimum : ℚ) + 1 else (p.maximum : ℚ) with hM
  rw [if_neg (not_lt.2 h1), if_neg (not_lt.2 (h1.trans h12))]
  exact pyInt_mono (add_le_add_right (mul_le_mul_of_nonneg_left
    (pwmratio_anti_second _ _ hfd0' hfdd' t₁ t₂ h1 h12) (by linarith)) _)

/-! ### Motion-cycle lemmas for Door.update -/

lemma update_not_moving (p : DoorParams) (now : ℚ) (s : DoorState) (h : s.moving = false) :
    update p now s = ({ s with slow := false }, Option.none) := by
  simp [update, h]

lemma update_cutoff (p : DoorParams) (now : ℚ) (s : DoorState)
    (hmov : s.moving = true)
    (hrt : (p.max_running_time : ℚ) ≤ now - s.start_running) :
    update p now s
      = ({ s with pwm_ratio := 0, moving := false }, some (Pub.pwm s.door 0)) := by
  simp [update, hmov, hrt]

lemma runTicks_stopped (p : DoorParams) (s : DoorState) (ts : List ℚ)
    (h : s.moving = false) :
    (runTicks p s ts).2 = [] ∧ (runTicks p s ts).1.moving = false ∧
    (runTicks p s ts).1.pwm_ratio = s.pwm_ratio := by
  induction ts generalizing s with
  | nil => exact ⟨rfl, h, rfl⟩
  | cons t ts ih =>
    have hu := update_not_moving p t s h
    have hrec := ih { s with slow := false } (by simpa using h)
    simp only [runTicks, hu]
    simpa using hrec

lemma exists_cons_cutoff {mrt T t : ℚ} {ts : List ℚ} (hcut : ¬ mrt ≤ t - T) :
    (∃ x ∈ t :: ts, mrt ≤ x - T) ↔ (∃ x ∈ ts, mrt ≤ x - T) := by
  constructor
  · rintro ⟨x, hx, hxc⟩
    rcases List.mem_cons.1 hx with rfl | hx'
    · exact absurd hxc hcut
    · exact ⟨x, hx', hxc⟩
  · rintro ⟨x, hx, hxc⟩
    exact ⟨x, List.mem_cons_of_mem _ hx, hxc⟩

lemma runTicks_cycle (p : DoorParams)
    (hfd0 : 0 < p.fast_duration) (hfdd : p.fast_duration < p.duration)
    (hmn1 : 1 ≤ p.minimum) (hmm : p.minimum < p.maximum)
    (T : ℚ) (sl : Bool) (d0 : ℕ) :
    ∀ (ticks : List ℚ) (s : DoorState) (u : ℚ), T ≤ u → MovingInv p T sl d0 u s →
      (u :: ticks).Chain' (· ≤ ·) →
      ((runTicks p s ticks).2.count (Pub.pwm d0 0)
          = if ∃ t ∈ ticks, (p.max_running_time : ℚ) ≤ t - T then 1 else 0) ∧
      ((∃ t ∈ ticks, (p.max_running_time : ℚ) ≤ t - T) →
        (runTicks p s ticks).1.moving = false ∧
        (runTicks p s ticks).1.pwm_ratio = 0) := by
  have hmn0 : 0 ≤ p.minimum := by linarith
  intro ticks
  induction ticks with
  | nil =>
    intro s u _ _ _
    simp [runTicks]
  | cons t ts ih =>
    intro s u hTu hInv hch
    obtain ⟨hmov, hstart, hslow, hdoor, hpr⟩ := hInv
    have hut : u ≤ t := (List.chain'_cons.1 hch).1
    have hch' : (t :: ts).Chain' (· ≤ ·) := (List.chain'_cons.1 hch).2
    have hTt : T ≤ t := hTu.trans hut
    by_cases hcut : (p.max_running_time : ℚ) ≤ t - T
    · -- fail-safe cutoff fires at this tick
      have hstep := update_cutoff p t s hmov (by rw [hstart]; exact hcut)
      have hstop := runTicks_stopped p { s with pwm_ratio := 0, moving := false } ts rfl
      have hif : ∃ x ∈ t :: ts, (p.max_running_time : ℚ) ≤ x - T :=
        ⟨t, List.mem_cons_self t ts, hcut⟩
      constructor
      · simp only [runTicks, hstep, Option.toList_some, List.singleton_append]
        rw [if_pos hif, List.count_cons, hstop.1]
        simp [hdoor]
      · intro _
        simp only [runTicks, hstep]
        exact ⟨hstop.2.1, by rw [hstop.2.2]⟩
    · -- a normal tick before the cutoff
      have hmrt : ¬ (p.max_running_time : ℚ) ≤ t - s.start_running := by
        rw [hstart]; exact hcut
      by_cases heq : doorPwm p s.slow (t - s.start_running) = s.pwm_ratio
      · -- unchanged pwm: no publish, state unchanged
        have hstep : update p t s = (s, Option.none) := by
          simp [update, hmov, hmrt, heq]
        have hInv' : MovingInv p T sl d0 t s := by
          refine ⟨hmov, hstart, hslow, hdoor, ?_⟩
          rcases hpr with h0 | ⟨t', h1, h2, h3, h4⟩
          · exact Or.inl h0
          · exact Or.inr ⟨t', h1, h2.trans hut, h3, h4⟩
        have hrec := ih s t hTt hInv' hch'
        constructor
        · simp only [runTicks, hstep, Option.toList_none, List.nil_append]
          rw [hrec.1, if_congr (exists_cons_cutoff hcut) rfl rfl]
        · intro hex
          have hex' := (exists_cons_cutoff hcut).1 hex
          have := hrec.2 hex'
          simpa [runTicks, hstep] using this
      · -- changed pwm: publishes the new value, which cannot be 0
        have hrne : doorPwm p s.slow (t - s.start_running) ≠ 0 := by
          rw [hslow, hstart]
          rw [hslow, hstart] at heq
          rcases hpr with h0 | ⟨t', h1, h2, h3, h4⟩
          · intro hr0; exact heq (by rw [hr0, h0])
          · intro hr0
            have hrt'0 : 0 ≤ t' - T := by linarith
            have hrt't : t' - T ≤ t - T := by
              have := h2.trans hut; linarith
            by_cases hhalf : t - T < (p.duration : ℚ)/2
            · have hm := doorPwm_mono_first p sl hfd0 hfdd hmn0 hmm
                (t' - T) (t - T) hrt'0 hrt't hhalf
              have hn := doorPwm_nonneg p sl hmn0 hmm (t' - T)
              rw [hr0] at hm
              exact h4 (h3.trans (le_antisymm hm hn))
            · have hge := doorPwm_ge_min_second p sl hmn0 hmm (t - T) (not_lt.1 hhalf)
              rw [hr0] at hge
              omega
        have hstep : update p t s
            = ({ s with pwm_ratio := doorPwm p s.slow (t - s.start_running) },
               some (Pub.pwm s.door (doorPwm p s.slow (t - s.start_running)))) := by
          simp [update, hmov, hmrt, heq]
        have hInv' : MovingInv p T sl d0 t
            { s with pwm_ratio := doorPwm p s.slow (t - s.start_running) } := by
          refine ⟨by simpa using hmov, by simpa using hstart, by simpa using hslow,
            by simpa using hdoor, Or.inr ⟨t, hTt, le_refl t, ?_, ?_⟩⟩
          · simp [hslow, hstart]
          · simpa [hslow, hstart] using hrne
        have hrec := ih _ t hTt hInv' hch'
        constructor
        · simp only [runTicks, hstep, Option.toList_some]
          rw [List.singleton_append, List.count_cons, hrec.1,
            if_congr (exists_cons_cutoff hcut) rfl rfl]
          have : ¬ (Pub.pwm s.door (doorPwm p s.slow (t - s.start_running)) = Pub.pwm d0 0) := by
            intro hpe
            injection hpe with _ h2
            exact hrne h2
          simp [this]
        · intro hex
          have hex' := (exists_cons_cutoff hcut).1 hex
          have := hrec.2 hex'
          simpa [runTicks, hstep] using this

/-! ### Roof.newvector helper lemmas -/

lemma startdoorDrv_pubs (now : ℚ) (dir sl : Bool) (s : DoorState) :
    ∀ m ∈ (startdoorDrv now dir sl s).2, m = Pub.dir s.door dir := by
  intro m hm
  unfold startdoorDrv at hm
  split_ifs at hm
  · simp at hm
  · simpa using hm

lemma roofStep_idle (status : RoofStatus) (now : ℚ) (e : String × String)
    (ds : DoorState × DoorState)
    (hno : status ≠ RoofStatus.OPEN) (hnc : status ≠ RoofStatus.CLOSED) :
    roofStep status now e ds = (ds, [], false) := by
  unfold roofStep
  split_ifs <;> simp_all

lemma roofStep_dir_closed (now : ℚ) (e : String × String)
    (ds : DoorState × DoorState) (d : ℕ) (b : Bool)
    (hmem : Pub.dir d b ∈ (roofStep RoofStatus.CLOSED now e ds).2.1) : b = true := by
  simp only [roofStep, startdoorDrv] at hmem
  split_ifs at hmem <;> simp_all <;> tauto

lemma roofStep_dir_open (now : ℚ) (e : String × String)
    (ds : DoorState × DoorState) (d : ℕ) (b : Bool)
    (hmem : Pub.dir d b ∈ (roofStep RoofStatus.OPEN now e ds).2.1) : b = false := by
  simp only [roofStep, startdoorDrv] at hmem
  split_ifs at hmem <;> simp_all <;> tauto

lemma roofNewvector_idle (status : RoofStatus) (now : ℚ)
    (elems : List (String × String)) (ds : DoorState × DoorState)
    (hno : status ≠ RoofStatus.OPEN) (hnc : status ≠ RoofStatus.CLOSED) :
    roofNewvector status now elems ds = (ds, [], 0) := by
  induction elems generalizing ds with
  | nil => rfl
  | cons e es ih =>
    simp [roofNewvector, roofStep_idle status now e ds hno hnc, ih]

lemma roofNewvector_dir (status : RoofStatus) (now : ℚ)
    (elems : List (String × String)) (ds : DoorState × DoorState) (d : ℕ) (b : Bool)
    (hmem : Pub.dir d b ∈ (roofNewvector status now elems ds).2.1) :
    (b = true ∧ status = RoofStatus.CLOSED) ∨ (b = false ∧ status = RoofStatus.OPEN) := by
  induction elems generalizing ds with
  | nil => simp [roofNewvector] at hmem
  | cons e es ih =>
    simp only [roofNewvector] at hmem
    rcases List.mem_append.1 hmem with h | h
    · cases status with
      | CLOSED => exact Or.inl ⟨roofStep_dir_closed now e ds d b h, rfl⟩
      | OPEN => exact Or.inr ⟨roofStep_dir_open now e ds d b h, rfl⟩
      | OPENING =>
          rw [roofStep_idle _ now e ds (by simp) (by simp)] at h
          simp at h
      | CLOSING =>
          rw [roofStep_idle _ now e ds (by simp) (by simp)] at h
          simp at h
      | UNKNOWN =>
          rw [roofStep_idle _ now e ds (by simp) (by simp)] at h
          simp at h
    · exact ih _ h

/-! ### Claims -/

/-- Claim C4: at every StatusLights.update tick the aggregate door
status is a pure function of the two doors' (direction, moving) pairs:
both open-bound and neither moving gives OPEN; both open-bound and at
least one moving gives OPENING; both close-bound and neither moving
gives CLOSED; both close-bound and at least one moving gives CLOSING;
and any disagreement in direction gives UNKNOWN, reported (when it is a
change) with an Alert state — never OPEN or CLOSED. -/
theorem claim_C4 :
    ∀ ld lm rd rm : Bool,
      (ld = true → rd = true → lm = false → rm = false →
          doorStatus ld lm rd rm = RoofStatus.OPEN) ∧
      (ld = true → rd = true → (lm = true ∨ rm = true) →
          doorStatus ld lm rd rm = RoofStatus.OPENING) ∧
      (ld = false → rd = false → lm = false → rm = false →
          doorStatus ld lm rd rm = RoofStatus.CLOSED) ∧
      (ld = false → rd = false → (lm = true ∨ rm = true) →
          doorStatus ld lm rd rm = RoofStatus.CLOSING) ∧
      (ld ≠ rd →
          doorStatus ld lm rd rm = RoofStatus.UNKNOWN ∧
          ∀ prev : RoofStatus,
            statusUpdate prev ld lm rd rm = Option.none ∨
            statusUpdate prev ld lm rd rm
              = some (RoofStatus.UNKNOWN, "Alert", "Roof status unknown")) := by
  intro ld lm rd rm
  refine ⟨?_, ?_, ?_, ?_, ?_⟩
  · intro h1 h2 h3 h4; subst h1; subst h2; subst h3; subst h4; decide
  · intro h1 h2 h3; subst h1; subst h2
    rcases h3 with h | h
    · subst h; cases rm <;> decide
    · subst h; cases lm <;> decide
  · intro h1 h2 h3 h4; subst h1; subst h2; subst h3; subst h4; decide
  · intro h1 h2 h3; subst h1; subst h2
    rcases h3 with h | h
    · subst h; cases rm <;> decide
    · subst h; cases lm <;> decide
  · intro hne
    cases ld <;> cases rd
    · exact absurd rfl hne
    · exact ⟨by cases lm <;> cases rm <;> decide, by cases lm <;> cases rm <;> decide⟩
    · exact ⟨by cases lm <;> cases rm <;> decide, by cases lm <;> cases rm <;> decide⟩
    · exact absurd rfl hne

/-- Witness for C4 at a concrete disagreeing input. -/
theorem claim_C4_witness :
    doorStatus true false false false = RoofStatus.UNKNOWN ∧
    statusUpdate RoofStatus.CLOSED true false false false
      = some (RoofStatus.UNKNOWN, "Alert", "Roof status unknown") := by
  have h := (claim_C4 true false false false).2.2.2.2 (by decide)
  refine ⟨h.1, ?_⟩
  rcases h.2 RoofStatus.CLOSED with hnone | hsome
  · exact absurd hnone (by decide)
  · exact hsome

/-- Claim C5: a newNumberVector whose merged element values differ from
the current ones and violate a validation constraint (in particular a
received minimum ≥ the received maximum) is answered with state Alert
and a constraint-specific message, the stored parameters are unchanged
(no partial apply), and no parameter file is written. -/
theorem claim_C5 (cur : Params6) (recv : List (String × ℤ))
    (hchange : mergeElems cur recv ≠ cur)
    (hviol : (mergeElems cur recv).maximum ≤ (mergeElems cur recv).minimum ∨
             95 < (mergeElems cur recv).maximum ∨
             50 < (mergeElems cur recv).minimum ∨
             (mergeElems cur recv).minimum < 1) :
    (newvector cur recv).state = "Alert" ∧
    (newvector cur recv).params = cur ∧
    (newvector cur recv).written = false ∧
    ((mergeElems cur recv).maximum ≤ (mergeElems cur recv).minimum →
      (newvector cur recv).message = "The maximum pwm must be greater than the minimum") := by
  simp only [newvector]
  split_ifs with h1 h2 h3 h4 h5
  · exact absurd h1 hchange
  · exact ⟨rfl, rfl, rfl, fun _ => rfl⟩
  · exact ⟨rfl, rfl, rfl, fun hc => absurd hc h2⟩
  · exact ⟨rfl, rfl, rfl, fun hc => absurd hc h2⟩
  · exact ⟨rfl, rfl, rfl, fun hc => absurd hc h2⟩
  · rcases hviol with h | h | h | h
    · exact absurd h h2
    · exact absurd h h3
    · exact absurd h h4
    · exact absurd h h5

/-- Witness for C5: minimum=50, maximum=50 over the default elements. -/
theorem claim_C5_witness :
    mergeElems ⟨2,4,2,2,95,5⟩ [("MAXIMUM", (50:ℤ)), ("MINIMUM", 50)] ≠ ⟨2,4,2,2,95,5⟩ ∧
    (newvector ⟨2,4,2,2,95,5⟩ [("MAXIMUM", 50), ("MINIMUM", 50)]).state = "Alert" ∧
    (newvector ⟨2,4,2,2,95,5⟩ [("MAXIMUM", 50), ("MINIMUM", 50)]).params = ⟨2,4,2,2,95,5⟩ ∧
    (newvector ⟨2,4,2,2,95,5⟩ [("MAXIMUM", 50), ("MINIMUM", 50)]).written = false ∧
    (newvector ⟨2,4,2,2,95,5⟩ [("MAXIMUM", 50), ("MINIMUM", 50)]).message
      = "The maximum pwm must be greater than the minimum" := by
  have h := claim_C5 ⟨2,4,2,2,95,5⟩ [("MAXIMUM", 50), ("MINIMUM", 50)] (by decide) (by decide)
  exact ⟨by decide, h.1, h.2.1, h.2.2.1, h.2.2.2 (by decide)⟩

/-- Claim C6 (code bug): the resync loop of `picoserial.receiver` never
completes on observing a 0xFF byte — its `getbyte == 255` compares a
Python bytes object with an int, which is always False — so it only
ends by the (never-satisfied-by-pyserial) `None` check or by running
out of input; an available 0xFF byte is consumed without stopping.  No
Bus key is written on that path. -/
theorem claim_C6 :
    (∀ reads, resyncLoop reads = ResyncOutcome.timedOut ∨
              resyncLoop reads = ResyncOutcome.exhausted) ∧
    receiver [1, 25, 0, 254] [some [255]] = ([], some ResyncOutcome.exhausted) ∧
    resyncLoop [Option.none] = ResyncOutcome.timedOut := by
  refine ⟨?_, by decide, by decide⟩
  intro reads
  induction reads with
  | nil => exact Or.inr rfl
  | cons r rest ih =>
    cases r with
    | none => exact Or.inl rfl
    | some b => simpa [resyncLoop, pyEqBytesInt] using ih

/-- Claim C7, counterexample: with the device filter absent and a
mismatching name filter, the code emits the definition although the
claim's condition (each filter absent or matching) does not hold. -/
theorem claim_C7_counterexample :
    getvectorEmits Option.none (some "OTHER_NAME") "Roll off door" "LEFT_DOOR" = true ∧
    specEmitCondition Option.none (some "OTHER_NAME") "Roll off door" "LEFT_DOOR" = false := by
  exact ⟨rfl, by decide⟩

/-- Claim C7, amended: getvector emits the definition iff the device
filter is absent, or it equals the vector's device and the name filter
is absent or equals the vector's name (the name filter is only
consulted when a device filter is present). -/
theorem claim_C7_amended (devF nameF : Option String) (dev nm : String) :
    getvectorEmits devF nameF dev nm = true ↔
      (devF = Option.none ∨
        (devF = some dev ∧ (nameF = Option.none ∨ nameF = some nm))) := by
  cases devF with
  | none => simp [getvectorEmits]
  | some d =>
    cases nameF with
    | none => simp [getvectorEmits]
    | some n =>
      simp only [getvectorEmits]
      split_ifs with h
      · subst h
        simp [decide_eq_true_eq]
      · simp [h]

/-- Claim C9, counterexample: the Kelvin value of a raw reading of 0 is
more than 26 K away from the 683.6 K stated by the claim. -/
theorem claim_C9_counterexample : 26 < |kelvin 0 - 6836/10| := by
  have h : (26:ℚ) < kelvin 0 - 6836/10 := by
    norm_num [kelvin, conversion_factor]
  exact lt_of_lt_of_le h (le_abs_self _)

/-- Claim C9, amended: get_temperature converts a raw ADC reading `v`
to Kelvin as exactly `27 − (v·(3.3/65535) − 0.706)/0.001721 + 273.15`;
in particular a raw reading of 0 yields approximately 710.4 Kelvin. -/
theorem claim_C9_amended :
    (∀ v : ℤ, kelvin v
        = 27 - ((v : ℚ) * ((33/10) / 65535) - 706/1000) / (1721/1000000) + 27315/100) ∧
    |kelvin 0 - 7104/10| < 1/10 := by
  constructor
  · intro v; rfl
  · have h1 : kelvin 0 - 7104/10 < 1/10 := by norm_num [kelvin, conversion_factor]
    have h2 : -(1/10) < kelvin 0 - 7104/10 := by norm_num [kelvin, conversion_factor]
    rw [abs_lt]
    exact ⟨h2, h1⟩

/-- Claim C8: a chunk arriving on an empty accumulation buffer that
does not begin with a recognized start tag produces no message and
leaves the buffer empty, so the following chunks are processed exactly
as if the garbage had never arrived. -/
theorem claim_C8 (g : List Char) (hg : findStartTag (pyStrip g) = Option.none)
    (rest : List (List Char)) :
    readerStep Option.none g = (Option.none, Option.none) ∧
    runReader Option.none (g :: rest) = runReader Option.none rest := by
  have hstep : readerStep Option.none g = (Option.none, Option.none) := by
    simp [readerStep, hg]
  refine ⟨hstep, ?_⟩
  simp [runReader, hstep]

/-- Witness for C8: a noise chunk followed by a valid self-closing
message, which is still completed. -/
theorem claim_C8_witness :
    findStartTag (pyStrip ("noise data>".data)) = Option.none ∧
    runReader Option.none ["noise data>".data, "<getProperties/>".data]
      = runReader Option.none ["<getProperties/>".data] ∧
    runReader Option.none ["<getProperties/>".data] = ["<getProperties/>".data] := by
  refine ⟨by decide, (claim_C8 _ (by decide) _).2, by decide⟩

/-- Claim C10: Roof.newvector starts the doors only when the aggregate
status is exactly CLOSED (open-bound start, direction true) or exactly
OPEN (close-bound start, direction false); when the status is OPENING,
CLOSING or UNKNOWN, processing any list of oneSwitch elements leaves
both doors unchanged and publishes nothing to the Bus. -/
theorem claim_C10 (status : RoofStatus) (now : ℚ)
    (elems : List (String × String)) (ds : DoorState × DoorState) :
    ((status = RoofStatus.OPENING ∨ status = RoofStatus.CLOSING ∨
        status = RoofStatus.UNKNOWN) →
      roofNewvector status now elems ds = (ds, [], 0)) ∧
    (∀ d b, Pub.dir d b ∈ (roofNewvector status now elems ds).2.1 →
      (b = true ∧ status = RoofStatus.CLOSED) ∨
      (b = false ∧ status = RoofStatus.OPEN)) := by
  constructor
  · intro h
    have hno : status ≠ RoofStatus.OPEN := by rcases h with h | h | h <;> subst h <;> simp
    have hnc : status ≠ RoofStatus.CLOSED := by rcases h with h | h | h <;> subst h <;> simp
    exact roofNewvector_idle status now elems ds hno hnc
  · intro d b hmem
    exact roofNewvector_dir status now elems ds d b hmem

/-- Witness for C10: with status OPENING, an open command changes
nothing and publishes nothing. -/
theorem claim_C10_witness :
    roofNewvector RoofStatus.OPENING 0 [("SHUTTER_OPEN", "On")]
        (⟨0, true, 0, false, 0, false⟩, ⟨1, true, 0, false, 0, false⟩)
      = ((⟨0, true, 0, false, 0, false⟩, ⟨1, true, 0, false, 0, false⟩), [], 0) :=
  (claim_C10 RoofStatus.OPENING 0 [("SHUTTER_OPEN", "On")]
    (⟨0, true, 0, false, 0, false⟩, ⟨1, true, 0, false, 0, false⟩)).1 (Or.inl rfl)

/-- Claim C2: for parameters 0 < fast_duration < duration and any real
t ≥ 0, the simplified speed curve pwmratio is between 0 and 1;
pwmratio(0) = 0; and at the midpoint t = duration/2 it is exactly 1. -/
theorem claim_C2 (fd dur t : ℚ) (hfd0 : 0 < fd) (hfd : fd < dur) (_ht : 0 ≤ t) :
    0 ≤ pwmratio t fd dur ∧ pwmratio t fd dur ≤ 1 ∧
    pwmratio 0 fd dur = 0 ∧ pwmratio (dur/2) fd dur = 1 :=
  ⟨pwmratio_nonneg t fd dur, pwmratio_le_one t fd dur,
   pwmratio_zero fd dur hfd0 hfd, pwmratio_mid fd dur hfd0 hfd⟩

/-- Witness for C2 at fast_duration = 4, duration = 8, t = 1. -/
theorem claim_C2_witness :
    (0:ℚ) < 4 ∧ (4:ℚ) < 8 ∧ (0:ℚ) ≤ 1 ∧
    (0 ≤ pwmratio 1 4 8 ∧ pwmratio 1 4 8 ≤ 1 ∧
     pwmratio 0 4 8 = 0 ∧ pwmratio 4 4 8 = 1) := by
  have h := claim_C2 4 8 1 (by norm_num) (by norm_num) (by norm_num)
  have h48 : (8:ℚ)/2 = 4 := by norm_num
  rw [h48] at h
  exact ⟨by norm_num, by norm_num, by norm_num, h⟩

/-- Claim C3, counterexample: with the default parameters the door is
moving at elapsed time 3/40 s (a valid tick, well inside the first half
of duration) and Door.update computes, stores and publishes the integer
pwm 3, which is strictly below minimum = 5 — refuting "never below
minimum at every tick while moving". -/
theorem claim_C3_counterexample :
    doorPwm ⟨4, 8, 10, 95, 5⟩ false (3/40) = 3 ∧
    update ⟨4, 8, 10, 95, 5⟩ (3/40) ⟨0, true, 0, true, 0, false⟩
      = (⟨0, true, 3, true, 0, false⟩, some (Pub.pwm 0 3)) ∧
    (3:ℤ) < (⟨4, 8, 10, 95, 5⟩ : DoorParams).minimum := by
  have h1 : doorPwm ⟨4, 8, 10, 95, 5⟩ false (3/40) = 3 := by
    norm_num [doorPwm, pwmratio, curve, round2, clamp01, polyval, pyInt,
      curveA, curveB, curveC, curveD, curveE, round_eq]
  refine ⟨h1, ?_, by norm_num⟩
  simp only [update]
  norm_num [h1]

/-- Claim C3, amended: while a door is moving with 0 < fast_duration <
duration and 0 ≤ minimum < maximum, the integer PWM of Door.update is
monotone non-decreasing in elapsed time over the first half of
duration and monotone non-increasing over the second half; at every
elapsed time it is never above maximum and never below 0, and
throughout the second half it is never below minimum.  (In the first
half the value ramps up from 0 and can be below minimum.) -/
theorem claim_C3_amended (p : DoorParams) (slow : Bool)
    (hfd0 : 0 < p.fast_duration) (hfdd : p.fast_duration < p.duration)
    (hmn : 0 ≤ p.minimum) (hmm : p.minimum < p.maximum) :
    (∀ t₁ t₂ : ℚ, 0 ≤ t₁ → t₁ ≤ t₂ → t₂ < (p.duration : ℚ)/2 →
        doorPwm p slow t₁ ≤ doorPwm p slow t₂) ∧
    (∀ t₁ t₂ : ℚ, (p.duration : ℚ)/2 ≤ t₁ → t₁ ≤ t₂ →
        doorPwm p slow t₂ ≤ doorPwm p slow t₁) ∧
    (∀ t : ℚ, doorPwm p slow t ≤ p.maximum) ∧
    (∀ t : ℚ, 0 ≤ doorPwm p slow t) ∧
    (∀ t : ℚ, (p.duration : ℚ)/2 ≤ t → p.minimum ≤ doorPwm p slow t) :=
  ⟨fun t₁ t₂ h0 h12 h2 => doorPwm_mono_first p slow hfd0 hfdd hmn hmm t₁ t₂ h0 h12 h2,
   fun t₁ t₂ h1 h12 => doorPwm_anti_second p slow hfd0 hfdd hmn hmm t₁ t₂ h1 h12,
   fun t => doorPwm_le_max p slow hmn hmm t,
   fun t => doorPwm_nonneg p slow hmn hmm t,
   fun t ht => doorPwm_ge_min_second p slow hmn hmm t ht⟩

/-- Witness for C3 (amended) at the default parameters and concrete
tick instants on both sides of duration/2. -/
theorem claim_C3_witness :
    (0:ℤ) < 4 ∧ (4:ℤ) < 8 ∧ (0:ℤ) ≤ 5 ∧ (5:ℤ) < 95 ∧
    doorPwm ⟨4, 8, 10, 95, 5⟩ false (3/40) ≤ doorPwm ⟨4, 8, 10, 95, 5⟩ false 2 ∧
    doorPwm ⟨4, 8, 10, 95, 5⟩ false 7 ≤ doorPwm ⟨4, 8, 10, 95, 5⟩ false 5 ∧
    doorPwm ⟨4, 8, 10, 95, 5⟩ false 2 ≤ 95 ∧
    0 ≤ doorPwm ⟨4, 8, 10, 95, 5⟩ false 2 ∧
    (5:ℤ) ≤ doorPwm ⟨4, 8, 10, 95, 5⟩ false 5 := by
  have h := claim_C3_amended ⟨4, 8, 10, 95, 5⟩ false
    (by norm_num) (by norm_num) (by norm_num) (by norm_num)
  exact ⟨by norm_num, by norm_num, by norm_num, by norm_num,
    h.1 (3/40) 2 (by norm_num) (by norm_num) (by norm_num),
    h.2.1 5 7 (by norm_num) (by norm_num),
    h.2.2.1 2, h.2.2.2.1 2, h.2.2.2.2 5 (by norm_num)⟩

/-- Claim C1: for every motion cycle of a Door (a startdoor call from
a stopped state with stored ratio 0, followed by update ticks at
non-decreasing monotonic instants not before the start), a tick whose
elapsed time reaches max_running_time sets moving to false, zeroes the
stored pwm_ratio and publishes a zero-PWM command; that zero-PWM
publish happens exactly once per cycle (count 1 when some tick reaches
the cutoff, 0 otherwise); and every update tick on a stopped door
publishes nothing and leaves moving, pwm_ratio and direction
unchanged (it only clears the slow flag). -/
theorem claim_C1 (p : DoorParams) (s : DoorState)
    (hfd0 : 0 < p.fast_duration) (hfdd : p.fast_duration < p.duration)
    (hmn1 : 1 ≤ p.minimum) (hmm : p.minimum < p.maximum)
    (hmov : s.moving = false) (hpwm : s.pwm_ratio = 0)
    (dir : Bool) (T : ℚ) (ticks : List ℚ)
    (hch : (T :: ticks).Chain' (· ≤ ·)) :
    (∀ (now : ℚ) (s' : DoorState), s'.moving = true →
        (p.max_running_time : ℚ) ≤ now - s'.start_running →
        update p now s' = ({ s' with pwm_ratio := 0, moving := false },
                           some (Pub.pwm s'.door 0))) ∧
    (∀ (now : ℚ) (s' : DoorState), s'.moving = false →
        update p now s' = ({ s' with slow := false }, Option.none)) ∧
    ((runTicks p (startdoor T dir s).1 ticks).2.count (Pub.pwm s.door 0)
        = if ∃ t ∈ ticks, (p.max_running_time : ℚ) ≤ t - T then 1 else 0) ∧
    ((∃ t ∈ ticks, (p.max_running_time : ℚ) ≤ t - T) →
        (runTicks p (startdoor T dir s).1 ticks).1.moving = false ∧
        (runTicks p (startdoor T dir s).1 ticks).1.pwm_ratio = 0) := by
  have hsd : (startdoor T dir s).1
      = { s with start_running := T, moving := true, direction := dir } := by
    simp [startdoor, hmov]
  have hInv : MovingInv p T s.slow s.door T (startdoor T dir s).1 := by
    rw [hsd]
    exact ⟨rfl, rfl, rfl, rfl, Or.inl (by simpa using hpwm)⟩
  have hmain := runTicks_cycle p hfd0 hfdd hmn1 hmm T s.slow s.door ticks
    (startdoor T dir s).1 T le_rfl hInv hch
  exact ⟨fun now s' h1 h2 => update_cutoff p now s' h1 h2,
         fun now s' h1 => update_not_moving p now s' h1,
         hmain.1, hmain.2⟩

/-- Witness for C1: default parameters, a cycle started at 0 with ticks
at 0.2, 2, 5, 10 and 11 seconds; the cutoff at 10 s produces exactly
one zero-PWM publish. -/
theorem claim_C1_witness :
    (runTicks ⟨4, 8, 10, 95, 5⟩
        (startdoor 0 true ⟨0, true, 0, false, 0, false⟩).1
        [1/5, 2, 5, 10, 11]).2.count (Pub.pwm 0 0) = 1 := by
  have h := claim_C1 ⟨4, 8, 10, 95, 5⟩ ⟨0, true, 0, false, 0, false⟩
    (by norm_num) (by norm_num) (by norm_num) (by norm_num) rfl rfl
    true 0 [1/5, 2, 5, 10, 11]
    (by norm_num [List.chain'_cons, List.chain'_singleton])
  rw [h.2.2.1, if_pos]
  exact ⟨10, by simp, by norm_num⟩

end Acremscope